import Mathlib

/-!
# Verification of the `serde_asn1_der` DER codec core

A shallow embedding of the tag/length/value engine of the `serde_asn1_der`
crate: the length codec (`src/misc.rs`), the peekable reader, the primitive
value codecs (`src/de/*.rs`, `src/ser/*.rs`), the sequence framer and the
typed driver entry points (`src/de/mod.rs`, `src/ser/mod.rs`).

Bytes are modelled as `Nat` values (`< 256` for real inputs); byte streams
as `List Nat`.  `usize` is modelled as `Nat` with explicit `% 2^64` where
the source can wrap, and widths are carried as explicit bounds.  Fallible
operations return `Except Asn1Error`.
-/

namespace Asn1Der

/-- The error enum `SerdeAsn1DerError` from `src/lib.rs` (the data-carrying
`Message`/`Other` variants are collapsed to constructors without payload:
no claim distinguishes their payloads). -/
inductive Asn1Error where
  | TruncatedData
  | InvalidData
  | UnsupportedValue
  | UnsupportedType
  | InvalidSink
  | Message
  | Other
deriving DecidableEq, Repr

/-- `const USIZE_LEN: usize = size_of::<usize>()` from `src/misc.rs`
(64-bit platform). -/
def USIZE_LEN : Nat := 8

/-- Big-endian value of a byte list (`usize::from_be_bytes` /
`u128::from_be_bytes` on a zero-extended buffer reads back exactly the
big-endian value of the copied slice). -/
def beValue (l : List Nat) : Nat :=
  l.foldl (fun acc b => acc * 256 + b) 0

/-- The low `w` bytes of the big-endian representation of `n`
(`n.to_be_bytes()` restricted to a suffix). -/
def beBytes : Nat → Nat → List Nat
  | 0, _ => []
  | w + 1, n => beBytes w (n / 256) ++ [n % 256]

/-- `u64::leading_zeros` on a value `< 2^64`. -/
def leadingZeros64 (n : Nat) : Nat :=
  if n = 0 then 64 else 63 - Nat.log2 n

/-- `u128::leading_zeros` on a value `< 2^128`. -/
def leadingZeros128 (n : Nat) : Nat :=
  if n = 0 then 128 else 127 - Nat.log2 n

/-- `Length::serialize` from `src/misc.rs`, returned as the list of bytes
written: short form for `len <= 127`, otherwise
`(to_write | 0x80)` followed by `to_be_bytes()[USIZE_LEN - to_write ..]`
where `to_write = USIZE_LEN - len.leading_zeros() / 8`. -/
def lengthSerialize (len : Nat) : List Nat :=
  if len ≤ 127 then [len]
  else
    let toWrite := USIZE_LEN - leadingZeros64 len / 8
    (toWrite + 0x80) :: (beBytes USIZE_LEN len).drop (USIZE_LEN - toWrite)

/-- The reader state of the `Deserializer`: the remaining input bytes and
the `PeekableReader` position (bytes consumed so far).  A byte held only in
the peek buffer is modelled as still at the head of `input` (it is not
counted in `pos` and is re-delivered by the next read, exactly as in
`src/misc.rs`). -/
structure DeState where
  input : List Nat
  pos : Nat
deriving DecidableEq, Repr

/-- `ReadExt::read_one`: consume one byte; `UnexpectedEof` maps to
`TruncatedData` via `From<io::Error>` in `src/lib.rs`. -/
def readOne (s : DeState) : Except Asn1Error Nat × DeState :=
  match s.input with
  | [] => (.error .TruncatedData, s)
  | b :: rest => (.ok b, ⟨rest, s.pos + 1⟩)

/-- `Read::read_exact` on the peekable reader: consume `n` bytes, or fail
with `TruncatedData` after consuming what is available (the default
`read_exact` loop reads until a zero-length read). -/
def readExact (s : DeState) (n : Nat) : Except Asn1Error (List Nat) × DeState :=
  if n ≤ s.input.length then
    (.ok (s.input.take n), ⟨s.input.drop n, s.pos + n⟩)
  else
    (.error .TruncatedData, ⟨[], s.pos + s.input.length⟩)

/-- `PeekableReader::peek_one`: look at the next byte without consuming it
(`pos` does not count peeked-but-unread bytes). -/
def peekOne (s : DeState) : Except Asn1Error Nat × DeState :=
  match s.input with
  | [] => (.error .TruncatedData, s)
  | b :: _ => (.ok b, s)

/-- `Length::deserialized` from `src/misc.rs`: one byte; high bit clear ⇒
short form; high bit set ⇒ low 7 bits give the count of following
big-endian length bytes (`UnsupportedValue` if more than `USIZE_LEN`). -/
def lengthDeserialized (s : DeState) : Except Asn1Error Nat × DeState :=
  match readOne s with
  | (.error e, s1) => (.error e, s1)
  | (.ok n, s1) =>
    if 128 ≤ n then
      let len := n % 128
      if len > USIZE_LEN then (.error .UnsupportedValue, s1)
      else
        match readExact s1 len with
        | (.error e, s2) => (.error e, s2)
        | (.ok bs, s2) => (.ok (beValue bs), s2)
    else (.ok n, s1)

/-! ## Primitive value codecs (decode side, over a payload slice) -/

/-- `Boolean::TAG` (`src/de/boolean.rs`). -/
def BooleanTAG : Nat := 0x01
/-- `UnsignedInteger::TAG` (`src/de/integer.rs`). -/
def IntegerTAG : Nat := 0x02
/-- `OctetString::TAG` (`src/de/octet_string.rs`). -/
def OctetStringTAG : Nat := 0x04
/-- `Null::TAG` (`src/de/null.rs`). -/
def NullTAG : Nat := 0x05
/-- `Utf8String::TAG` (`src/de/utf8_string.rs`). -/
def Utf8StringTAG : Nat := 0x0c
/-- `Sequence::TAG` (`src/de/sequence.rs`). -/
def SequenceTAG : Nat := 0x30

/-- `Boolean::deserialize` from `src/de/boolean.rs`. -/
def booleanDeserialize : List Nat → Except Asn1Error Bool
  | [] => .error .TruncatedData
  | b :: rest =>
    if rest.length + 1 > 1 then .error .InvalidData
    else if b = 0x00 then .ok false
    else if b = 0xff then .ok true
    else .error .InvalidData

/-- `UInt::from_u128` from `src/de/integer.rs`, with the target type's
`max_value()` made explicit (`u8`: `2^8-1`, …, `usize`: `2^64-1`,
`u128`: `2^128-1`). -/
def fromU128 (max num : Nat) : Except Asn1Error Nat :=
  if num > max then .error .UnsupportedValue else .ok num

/-- `UnsignedInteger::deserialize` from `src/de/integer.rs`: reject a first
byte `>= 0x80` (`UnsupportedValue`); reject `0x00` followed by a byte
`< 0x80` (`InvalidData`, non-minimal); strip a single `0x00` pad;
reject more than 16 remaining bytes (`UnsupportedValue`);
zero-extend into a `u128` and narrow via `from_u128`. -/
def uintDeserialize (max : Nat) : List Nat → Except Asn1Error Nat
  | [] => .error .TruncatedData
  | b0 :: rest =>
    if 128 ≤ b0 then .error .UnsupportedValue
    else
      let strip : Except Asn1Error (List Nat) :=
        if b0 = 0 then
          match rest with
          | b1 :: _ => if b1 < 128 then .error .InvalidData else .ok rest
          | [] => .ok []
        else .ok (b0 :: rest)
      match strip with
      | .error e => .error e
      | .ok d =>
        if d.length > 16 then .error .UnsupportedValue
        else fromU128 max (beValue d)

/-- `Null::deserialize` from `src/de/null.rs`. -/
def nullDeserialize (data : List Nat) : Except Asn1Error Unit :=
  if data.isEmpty then .ok () else .error .InvalidData

/-- `OctetString::deserialize` from `src/de/octet_string.rs`: the payload
verbatim. -/
def octetStringDeserialize (data : List Nat) : Except Asn1Error (List Nat) :=
  .ok data

/-- Modelled from the spec: `str::from_utf8`'s validity check (the standard
library collaborator used by `Utf8String::deserialize` in
`src/de/utf8_string.rs`): "payload must be valid UTF-8, else
`InvalidData`".  Fuel-indexed RFC 3629 byte-level validator; the fuel is
the list length, enough since every step consumes at least one byte. -/
def utf8ValidAux : Nat → List Nat → Bool
  | 0, l => l.isEmpty
  | _ + 1, [] => true
  | fuel + 1, b :: rest =>
    if b ≤ 0x7f then utf8ValidAux fuel rest
    else if 0xc2 ≤ b ∧ b ≤ 0xdf then
      match rest with
      | c1 :: r => decide (0x80 ≤ c1 ∧ c1 ≤ 0xbf) && utf8ValidAux fuel r
      | [] => false
    else if b = 0xe0 then
      match rest with
      | c1 :: c2 :: r =>
        decide (0xa0 ≤ c1 ∧ c1 ≤ 0xbf) && decide (0x80 ≤ c2 ∧ c2 ≤ 0xbf) &&
          utf8ValidAux fuel r
      | _ => false
    else if (0xe1 ≤ b ∧ b ≤ 0xec) ∨ b = 0xee ∨ b = 0xef then
      match rest with
      | c1 :: c2 :: r =>
        decide (0x80 ≤ c1 ∧ c1 ≤ 0xbf) && decide (0x80 ≤ c2 ∧ c2 ≤ 0xbf) &&
          utf8ValidAux fuel r
      | _ => false
    else if b = 0xed then
      match rest with
      | c1 :: c2 :: r =>
        decide (0x80 ≤ c1 ∧ c1 ≤ 0x9f) && decide (0x80 ≤ c2 ∧ c2 ≤ 0xbf) &&
          utf8ValidAux fuel r
      | _ => false
    else if b = 0xf0 then
      match rest with
      | c1 :: c2 :: c3 :: r =>
        decide (0x90 ≤ c1 ∧ c1 ≤ 0xbf) && decide (0x80 ≤ c2 ∧ c2 ≤ 0xbf) &&
          decide (0x80 ≤ c3 ∧ c3 ≤ 0xbf) && utf8ValidAux fuel r
      | _ => false
    else if 0xf1 ≤ b ∧ b ≤ 0xf3 then
      match rest with
      | c1 :: c2 :: c3 :: r =>
        decide (0x80 ≤ c1 ∧ c1 ≤ 0xbf) && decide (0x80 ≤ c2 ∧ c2 ≤ 0xbf) &&
          decide (0x80 ≤ c3 ∧ c3 ≤ 0xbf) && utf8ValidAux fuel r
      | _ => false
    else if b = 0xf4 then
      match rest with
      | c1 :: c2 :: c3 :: r =>
        decide (0x80 ≤ c1 ∧ c1 ≤ 0x8f) && decide (0x80 ≤ c2 ∧ c2 ≤ 0xbf) &&
          decide (0x80 ≤ c3 ∧ c3 ≤ 0xbf) && utf8ValidAux fuel r
      | _ => false
    else false

/-- UTF-8 validity of a byte list (see `utf8ValidAux`). -/
def utf8Valid (l : List Nat) : Bool := utf8ValidAux l.length l

/-- `Utf8String::deserialize` from `src/de/utf8_string.rs`, at byte level:
a decoded `&str` is identified with its UTF-8 byte list. -/
def utf8StringDeserialize (data : List Nat) : Except Asn1Error (List Nat) :=
  if utf8Valid data then .ok data else .error .InvalidData

/-! ## Driver (decode entry points, `src/de/mod.rs`) -/

/-- `Deserializer::__next_tag_len`: read the tag byte, then the length. -/
def nextTagLen (s : DeState) : Except Asn1Error (Nat × Nat) × DeState :=
  match readOne s with
  | (.error e, s1) => (.error e, s1)
  | (.ok tag, s1) =>
    match lengthDeserialized s1 with
    | (.error e, s2) => (.error e, s2)
    | (.ok len, s2) => (.ok (tag, len), s2)

/-- `Deserializer::__next_object`: read tag, length, and the
declared-length payload into `self.buf` (returns `(tag, buf)`). -/
def nextObject (s : DeState) : Except Asn1Error (Nat × List Nat) × DeState :=
  match readOne s with
  | (.error e, s1) => (.error e, s1)
  | (.ok tag, s1) =>
    match lengthDeserialized s1 with
    | (.error e, s2) => (.error e, s2)
    | (.ok len, s2) =>
      match readExact s2 len with
      | (.error e, s3) => (.error e, s3)
      | (.ok buf, s3) => (.ok (tag, buf), s3)

/-- `Deserializer::deserialize_bool`: peek the tag, `InvalidData` on
mismatch, else read the object and decode the boolean payload. -/
def deserializeBool (s : DeState) : Except Asn1Error Bool × DeState :=
  match peekOne s with
  | (.error e, s1) => (.error e, s1)
  | (.ok t, s1) =>
    if t ≠ BooleanTAG then (.error .InvalidData, s1)
    else
      match nextObject s1 with
      | (.error e, s2) => (.error e, s2)
      | (.ok (_, buf), s2) =>
        match booleanDeserialize buf with
        | .error e => (.error e, s2)
        | .ok b => (.ok b, s2)

/-- `Deserializer::deserialize_u8` … `deserialize_u128` (and the `usize`
path through `UInt`), with the width's `max_value()` explicit: peek the
tag, `InvalidData` on mismatch, else read the object and decode the
integer payload. -/
def deserializeUInt (max : Nat) (s : DeState) : Except Asn1Error Nat × DeState :=
  match peekOne s with
  | (.error e, s1) => (.error e, s1)
  | (.ok t, s1) =>
    if t ≠ IntegerTAG then (.error .InvalidData, s1)
    else
      match nextObject s1 with
      | (.error e, s2) => (.error e, s2)
      | (.ok (_, buf), s2) =>
        match uintDeserialize max buf with
        | .error e => (.error e, s2)
        | .ok v => (.ok v, s2)

/-- `Deserializer::deserialize_str` (and `deserialize_string`, which runs
the same checks before converting to an owned `String`). -/
def deserializeStr (s : DeState) : Except Asn1Error (List Nat) × DeState :=
  match peekOne s with
  | (.error e, s1) => (.error e, s1)
  | (.ok t, s1) =>
    if t ≠ Utf8StringTAG then (.error .InvalidData, s1)
    else
      match nextObject s1 with
      | (.error e, s2) => (.error e, s2)
      | (.ok (_, buf), s2) =>
        match utf8StringDeserialize buf with
        | .error e => (.error e, s2)
        | .ok v => (.ok v, s2)

/-- `Deserializer::deserialize_bytes` (and `deserialize_byte_buf`): peek
the tag, `InvalidData` unless it is the octet-string tag, else read the
object and return the payload. -/
def deserializeBytes (s : DeState) : Except Asn1Error (List Nat) × DeState :=
  match peekOne s with
  | (.error e, s1) => (.error e, s1)
  | (.ok t, s1) =>
    if t ≠ OctetStringTAG then (.error .InvalidData, s1)
    else
      match nextObject s1 with
      | (.error e, s2) => (.error e, s2)
      | (.ok (_, buf), s2) =>
        match octetStringDeserialize buf with
        | .error e => (.error e, s2)
        | .ok v => (.ok v, s2)

/-- `Deserializer::deserialize_unit`: peek the tag, `InvalidData` unless
it is the `Null` tag, else read the object and check the empty payload. -/
def deserializeUnit (s : DeState) : Except Asn1Error Unit × DeState :=
  match peekOne s with
  | (.error e, s1) => (.error e, s1)
  | (.ok t, s1) =>
    if t ≠ NullTAG then (.error .InvalidData, s1)
    else
      match nextObject s1 with
      | (.error e, s2) => (.error e, s2)
      | (.ok (_, buf), s2) =>
        match nullDeserialize buf with
        | .error e => (.error e, s2)
        | .ok v => (.ok v, s2)

/-- The header part of `Deserializer::deserialize_seq`: it reads tag and
length via `__next_tag_len` FIRST and only then matches the tag against
`Sequence::TAG`, returning the declared byte length to be handed to
`Sequence::deserialize_lazy` (the `visit_seq` hand-off). -/
def deserializeSeqHeader (s : DeState) : Except Asn1Error Nat × DeState :=
  match nextTagLen s with
  | (.error e, s1) => (.error e, s1)
  | (.ok (tag, len), s1) =>
    if tag = SequenceTAG then (.ok len, s1)
    else (.error .InvalidData, s1)

/-- `Sequence::next_element_seed` from `src/de/sequence.rs`, generic over
the seed's decode function: if the remaining declared length is `0`,
report end of sequence; otherwise decode one element through the Driver
and subtract the consumed byte delta from the remaining length with
`usize` semantics — the source performs `self.len -= delta` with no
underflow check, so the subtraction wraps modulo `2^64` (and panics in a
debug build) when the element consumed more than the remaining length. -/
def seqNextElement {α : Type} (seed : DeState → Except Asn1Error α × DeState)
    (s : DeState) (len : Nat) :
    Except Asn1Error (Option α) × DeState × Nat :=
  if len = 0 then (.ok none, s, len)
  else
    match seed s with
    | (.error e, s1) => (.error e, s1, len)
    | (.ok v, s1) => (.ok (some v), s1, (len + 2 ^ 64 - (s1.pos - s.pos)) % 2 ^ 64)

/-! ## Serializer side (`src/ser/*.rs`), bytes written as lists -/

/-- The `skip` computation of `UnsignedInteger::serialize`
(`src/ser/integer.rs`): `value.leading_zeros()` rounded up to whole
bytes. -/
def intSkip (v : Nat) : Nat :=
  let n := leadingZeros128 v
  if n % 8 = 0 then n / 8 else n / 8 + 1

/-- `UnsignedInteger::serialize` from `src/ser/integer.rs` (every width is
first widened to `u128` by `serialize_u8`…`serialize_u64`): tag `0x02`,
the length `17 - skip`, then `bytes[skip..]` of the 17-byte buffer
`[0x00] ++ value.to_be_bytes()`. -/
def uintSerialize (v : Nat) : List Nat :=
  0x02 :: lengthSerialize (17 - intSkip v) ++ (0 :: beBytes 16 v).drop (intSkip v)

/-- `Boolean::serialize` from `src/ser/boolean.rs` (no encapsulator armed):
tag `0x01`, length `1`, then `0xff`/`0x00`. -/
def boolSerialize (v : Bool) : List Nat :=
  0x01 :: lengthSerialize 1 ++ [if v then 0xff else 0x00]

/-- `Null::serialize` from `src/ser/null.rs` (no encapsulator armed):
tag `0x05`, length `0`. -/
def nullSerialize : List Nat :=
  0x05 :: lengthSerialize 0

/-- `OctetString::serialize` from `src/ser/octet_string.rs`: tag `0x04`,
the payload length, the payload verbatim. -/
def octetStringSerialize (v : List Nat) : List Nat :=
  0x04 :: lengthSerialize v.length ++ v

/-- `Utf8String::serialize` from `src/ser/utf8_string.rs` (no encapsulator
armed), at byte level (`value.as_bytes()` is the string's UTF-8 byte
list): tag `0x0c`, the byte length, the bytes verbatim. -/
def utf8StringSerialize (v : List Nat) : List Nat :=
  0x0c :: lengthSerialize v.length ++ v

/-- The sequence serializer `Sequence` from `src/ser/sequence.rs`: the
real sink written so far, the private element buffer (a `Cursor<Vec<u8>>`)
and the wrapper tag chosen at `serialize_lazy` time. -/
structure SeqSerializer where
  sink : List Nat
  buf : List Nat
  tag : Nat
deriving DecidableEq, Repr

/-- `Sequence::serialize_lazy`: fresh private buffer, nothing written. -/
def serializeLazy (sink : List Nat) (tag : Nat) : SeqSerializer :=
  ⟨sink, [], tag⟩

/-- `Sequence::write_object` (the body of `serialize_element` /
`serialize_field`): serialize the child *into the private buffer* via a
recursive `to_writer` call — `enc` is the child's own encoding.  The real
sink is untouched. -/
def writeObject (s : SeqSerializer) (enc : List Nat) : SeqSerializer :=
  { s with buf := s.buf ++ enc }

/-- `Sequence::finalize` (the body of `end`), without an armed
encapsulator (`__write_encapsulator` writes nothing): the wrapper tag,
the DER length of the buffered size, then the buffered bytes, appended to
the real sink. -/
def seqFinalize (s : SeqSerializer) : List Nat :=
  s.sink ++ s.tag :: lengthSerialize s.buf.length ++ s.buf

/-! ## Encapsulation state machine (decode side, `extra_types` build) -/

/-- `BitStringAsn1Container::<()>::TAG` from `src/asn1_wrapper.rs`. -/
def BitStringContainerTAG : Nat := 0x03

/-- The `Deserializer` state in the `extra_types` build: reader state plus
the `encapsulated` flag and `encapsulator_tag` field. -/
structure DeStateE where
  input : List Nat
  pos : Nat
  encapsulated : Bool
  encapsulatorTag : Nat
deriving DecidableEq, Repr

/-- `Deserializer::__decapsulate` from `src/de/mod.rs`: a no-op when not
armed; when armed, the flag is cleared first, then the wrapper tag is
peeked — on mismatch the error is `InvalidData` (with the flag already
cleared); on match the tag, the wrapper length, and (for the bit-string
container) the unused-bits byte are consumed. -/
def decapsulate (s : DeStateE) : Except Asn1Error Unit × DeStateE :=
  if s.encapsulated then
    let r0 : DeState := ⟨s.input, s.pos⟩
    let pack : DeState → DeStateE := fun r =>
      { input := r.input, pos := r.pos, encapsulated := false,
        encapsulatorTag := s.encapsulatorTag }
    match peekOne r0 with
    | (.error e, r1) => (.error e, pack r1)
    | (.ok t, r1) =>
      if t = s.encapsulatorTag then
        match readOne r1 with
        | (.error e, r2) => (.error e, pack r2)
        | (.ok _, r2) =>
          match lengthDeserialized r2 with
          | (.error e, r3) => (.error e, pack r3)
          | (.ok _, r3) =>
            if s.encapsulatorTag = BitStringContainerTAG then
              match readOne r3 with
              | (.error e, r4) => (.error e, pack r4)
              | (.ok _, r4) => (.ok (), pack r4)
            else (.ok (), pack r3)
      else (.error .InvalidData, pack r1)
  else (.ok (), s)

/-! ## Helper lemmas -/

theorem beValue_nil : beValue [] = 0 := rfl

theorem beValue_append_singleton (l : List Nat) (b : Nat) :
    beValue (l ++ [b]) = beValue l * 256 + b := by
  simp [beValue, List.foldl_append]

theorem beBytes_length (w n : Nat) : (beBytes w n).length = w := by
  induction w generalizing n with
  | zero => rfl
  | succ w ih => simp [beBytes, ih]

theorem beValue_beBytes (w n : Nat) : beValue (beBytes w n) = n % 256 ^ w := by
  induction w generalizing n with
  | zero => simp [beBytes, beValue_nil, Nat.mod_one]
  | succ w ih =>
    rw [beBytes, beValue_append_singleton, ih, pow_succ, mul_comm (256 ^ w) 256,
      Nat.mod_mul]
    omega

theorem beBytes_add (a b n : Nat) :
    beBytes (a + b) n = beBytes a (n / 256 ^ b) ++ beBytes b n := by
  induction b generalizing n with
  | zero => simp [beBytes]
  | succ b ih =>
    have h1 : a + (b + 1) = (a + b) + 1 := by omega
    rw [h1, beBytes, ih, beBytes, List.append_assoc,
      Nat.div_div_eq_div_mul, ← pow_succ']

theorem beBytes_drop (a b n : Nat) :
    (beBytes (a + b) n).drop a = beBytes b n := by
  rw [beBytes_add, List.drop_left' (beBytes_length a _)]

theorem beBytes_succ_cons (k n : Nat) :
    beBytes (k + 1) n = (n / 256 ^ k % 256) :: beBytes k n := by
  rw [show k + 1 = 1 + k from by omega, beBytes_add]
  rfl

theorem beBytes_of_lt (k n : Nat) (h : n < 256 ^ k) :
    beBytes (k + 1) n = 0 :: beBytes k n := by
  rw [beBytes_succ_cons, Nat.div_eq_of_lt h]

theorem pow256_eq_pow2 (k : Nat) : (256 : Nat) ^ k = 2 ^ (8 * k) := by
  rw [pow_mul]; norm_num

theorem log2_le_self_pow (n : Nat) (h : n ≠ 0) : 2 ^ Nat.log2 n ≤ n :=
  (Nat.le_log2 h).mp le_rfl

theorem lt_pow_log2_succ (n : Nat) (h : n ≠ 0) : n < 2 ^ (Nat.log2 n + 1) :=
  (Nat.log2_lt h).mp (Nat.lt_succ_self _)

theorem log2_lt_of_lt_pow (n k : Nat) (h : n ≠ 0) (hn : n < 2 ^ k) :
    Nat.log2 n < k :=
  (Nat.log2_lt h).mpr hn

/-- The top byte of the minimal big-endian form: with `L = log2 n`,
`q = L / 8`, `r = L % 8`, the quotient `n / 256 ^ q` lies in
`[2 ^ r, 2 ^ (r + 1))`. -/
theorem top_byte_bounds (n : Nat) (h : n ≠ 0) :
    2 ^ (Nat.log2 n % 8) ≤ n / 256 ^ (Nat.log2 n / 8) ∧
      n / 256 ^ (Nat.log2 n / 8) < 2 ^ (Nat.log2 n % 8 + 1) := by
  set L := Nat.log2 n with hL
  have hlow : 2 ^ L ≤ n := log2_le_self_pow n h
  have hhigh : n < 2 ^ (L + 1) := lt_pow_log2_succ n h
  have hdecomp : 8 * (L / 8) + L % 8 = L := by omega
  rw [pow256_eq_pow2]
  constructor
  · rw [Nat.le_div_iff_mul_le (Nat.pos_pow_of_pos _ (by norm_num)), ← pow_add]
    calc 2 ^ (L % 8 + 8 * (L / 8)) = 2 ^ L := by rw [show L % 8 + 8 * (L / 8) = L from by omega]
    _ ≤ n := hlow
  · rw [Nat.div_lt_iff_lt_mul (Nat.pos_pow_of_pos _ (by norm_num)), ← pow_add]
    calc n < 2 ^ (L + 1) := hhigh
    _ = 2 ^ (L % 8 + 1 + 8 * (L / 8)) := by rw [show L % 8 + 1 + 8 * (L / 8) = L + 1 from by omega]

theorem readExact_append (xs rest : List Nat) (p n : Nat) (h : n = xs.length) :
    readExact ⟨xs ++ rest, p⟩ n = (.ok xs, ⟨rest, p + n⟩) := by
  subst h
  rw [readExact, if_pos (by simp)]
  simp [List.take_left' rfl, List.drop_left' rfl]

theorem lt_pow256_div8_succ (n : Nat) (h : n ≠ 0) :
    n < 256 ^ (Nat.log2 n / 8 + 1) := by
  have h2 := lt_pow_log2_succ n h
  have h3 : Nat.log2 n + 1 ≤ 8 * (Nat.log2 n / 8 + 1) := by omega
  calc n < 2 ^ (Nat.log2 n + 1) := h2
  _ ≤ 2 ^ (8 * (Nat.log2 n / 8 + 1)) := Nat.pow_le_pow_right (by norm_num) h3
  _ = 256 ^ (Nat.log2 n / 8 + 1) := (pow256_eq_pow2 _).symm

theorem pow256_div8_le (n : Nat) (h : n ≠ 0) : 256 ^ (Nat.log2 n / 8) ≤ n := by
  have h1 := log2_le_self_pow n h
  have h3 : 8 * (Nat.log2 n / 8) ≤ Nat.log2 n := by omega
  calc 256 ^ (Nat.log2 n / 8) = 2 ^ (8 * (Nat.log2 n / 8)) := pow256_eq_pow2 _
  _ ≤ 2 ^ Nat.log2 n := Nat.pow_le_pow_right (by norm_num) h3
  _ ≤ n := h1

/-- `Length::serialize` in the long form, in closed form: for
`128 ≤ n < 2^64` it writes `(k | 0x80)` followed by the `k` low
big-endian bytes of `n`, where `k = log2 n / 8 + 1`. -/
theorem lengthSerialize_long_eq (n : Nat) (h1 : 128 ≤ n) (h2 : n < 2 ^ 64) :
    lengthSerialize n =
      (Nat.log2 n / 8 + 1 + 128) :: beBytes (Nat.log2 n / 8 + 1) n := by
  have hne : n ≠ 0 := by omega
  have hL : Nat.log2 n < 64 := log2_lt_of_lt_pow n 64 hne h2
  have hL7 : 7 ≤ Nat.log2 n := (Nat.le_log2 hne).mpr h1
  have hlz : leadingZeros64 n = 63 - Nat.log2 n := by
    simp [leadingZeros64, hne]
  rw [lengthSerialize, if_neg (by omega)]
  simp only [USIZE_LEN, hlz]
  have htw : 8 - (63 - Nat.log2 n) / 8 = Nat.log2 n / 8 + 1 := by omega
  rw [htw]
  have hd : (beBytes 8 n).drop (8 - (Nat.log2 n / 8 + 1)) =
      beBytes (Nat.log2 n / 8 + 1) n := by
    have he : beBytes 8 n = beBytes ((8 - (Nat.log2 n / 8 + 1)) + (Nat.log2 n / 8 + 1)) n := by
      rw [show (8 - (Nat.log2 n / 8 + 1)) + (Nat.log2 n / 8 + 1) = 8 from by omega]
    rw [he, beBytes_drop]
  rw [hd]

/-- `Length::deserialized ∘ Length::serialize = id` on a reader, for every
`usize` value, with the exact byte count consumed. -/
theorem length_roundtrip (n : Nat) (h : n < 2 ^ 64) (rest : List Nat) (p : Nat) :
    lengthDeserialized ⟨lengthSerialize n ++ rest, p⟩ =
      (.ok n, ⟨rest, p + (lengthSerialize n).length⟩) := by
  by_cases hn : n ≤ 127
  · rw [lengthSerialize, if_pos hn]
    simp only [List.cons_append, List.nil_append, lengthDeserialized, readOne]
    rw [if_neg (by omega)]
    simp
  · have h1 : 128 ≤ n := by omega
    have hne : n ≠ 0 := by omega
    rw [lengthSerialize_long_eq n h1 h]
    set q := Nat.log2 n / 8 with hq
    have hq7 : q ≤ 7 := by
      have := log2_lt_of_lt_pow n 64 hne h
      omega
    simp only [List.cons_append, lengthDeserialized, readOne]
    rw [if_pos (by omega)]
    have hmod : (q + 1 + 128) % 128 = q + 1 := by omega
    simp only [hmod, USIZE_LEN]
    rw [if_neg (by omega)]
    rw [readExact_append _ rest _ (q + 1) (beBytes_length _ _).symm]
    have hval : beValue (beBytes (q + 1) n) = n := by
      rw [beValue_beBytes, Nat.mod_eq_of_lt (hq ▸ lt_pow256_div8_succ n hne)]
    simp only [hval, List.length_cons, beBytes_length, Prod.mk.injEq,
      DeState.mk.injEq]
    exact ⟨trivial, trivial, by omega⟩

theorem readExact_all (s : DeState) (n : Nat) (h : n = s.input.length) :
    readExact s n = (.ok s.input, ⟨[], s.pos + n⟩) := by
  subst h
  rw [readExact, if_pos le_rfl]
  simp

theorem lengthDeserialized_short (b : Nat) (hb : b ≤ 127) (l : List Nat)
    (p : Nat) :
    lengthDeserialized ⟨b :: l, p⟩ = (.ok b, ⟨l, p + 1⟩) := by
  simp only [lengthDeserialized, readOne]
  rw [if_neg (by omega)]

/-- `__next_object` on a well-formed TLV that is the whole remaining
input. -/
theorem nextObject_all (tag L : Nat) (hL : L < 2 ^ 64) (payload : List Nat)
    (hlen : payload.length = L) (p : Nat) :
    nextObject ⟨tag :: lengthSerialize L ++ payload, p⟩ =
      (.ok (tag, payload), ⟨[], p + 1 + (lengthSerialize L).length + L⟩) := by
  simp only [nextObject, readOne, List.cons_append,
    length_roundtrip L hL payload (p + 1),
    readExact_all ⟨payload, p + 1 + (lengthSerialize L).length⟩ L
      (by simpa using hlen.symm)]

/-- `__next_object` on a TLV whose payload ends early: the declared-length
`read_exact` fails and the `UnexpectedEof` maps to `TruncatedData`. -/
theorem nextObject_truncated (tag L : Nat) (hL : L < 2 ^ 64)
    (rest : List Nat) (hlen : rest.length < L) (p : Nat) :
    nextObject ⟨tag :: lengthSerialize L ++ rest, p⟩ =
      (.error .TruncatedData,
        ⟨[], p + 1 + (lengthSerialize L).length + rest.length⟩) := by
  have hre : readExact ⟨rest, p + 1 + (lengthSerialize L).length⟩ L =
      (.error .TruncatedData, ⟨[], p + 1 + (lengthSerialize L).length + rest.length⟩) := by
    rw [readExact, if_neg (by simpa using by omega)]
  simp only [nextObject, readOne, List.cons_append,
    length_roundtrip L hL rest (p + 1), hre]

/-- `UnsignedInteger::deserialize` on a payload with a leading byte in
`[0x01, 0x7f]` and at most 16 bytes: plain zero-extension. -/
theorem uintDeserialize_plain (max b0 : Nat) (rest : List Nat)
    (h1 : ¬ 128 ≤ b0) (h2 : b0 ≠ 0) (h3 : rest.length + 1 ≤ 16) :
    uintDeserialize max (b0 :: rest) = fromU128 max (beValue (b0 :: rest)) := by
  simp only [uintDeserialize, if_neg h1, if_neg h2]
  rw [if_neg (by simp; omega)]

/-- `UnsignedInteger::deserialize` on a padded payload
`0x00 :: b1 :: rest` with `b1 ≥ 0x80`: the pad byte is stripped. -/
theorem uintDeserialize_pad (max b1 : Nat) (rest : List Nat)
    (h1 : 128 ≤ b1) (h3 : rest.length + 1 ≤ 16) :
    uintDeserialize max (0 :: b1 :: rest) = fromU128 max (beValue (b1 :: rest)) := by
  have hb1 : ¬ b1 < 128 := by omega
  have hlen : ¬ (b1 :: rest).length > 16 := by simp; omega
  simp [uintDeserialize, hb1, hlen]
  exact fun h => absurd h (by omega)

/-- The payload written by `UnsignedInteger::serialize` decodes back to
the value through `UnsignedInteger::deserialize`, for every `u128`. -/
theorem uint_payload_roundtrip (v : Nat) (hv : v < 2 ^ 128) (max : Nat) :
    uintDeserialize max ((0 :: beBytes 16 v).drop (intSkip v)) = fromU128 max v := by
  by_cases hne : v = 0
  · subst hne
    have h1 : (0 :: beBytes 16 0).drop (intSkip 0) = [0] := by decide
    rw [h1]
    simp [uintDeserialize, beValue]
  · have hv256 : v < 256 ^ 16 := by
      rw [pow256_eq_pow2]
      norm_num
      exact hv
    have hpay : (0 : Nat) :: beBytes 16 v = beBytes 17 v :=
      (beBytes_of_lt 16 v hv256).symm
    have hL : Nat.log2 v ≤ 127 := by
      have := log2_lt_of_lt_pow v 128 hne hv
      omega
    have hq15 : Nat.log2 v / 8 ≤ 15 := by omega
    have htb := top_byte_bounds v hne
    have hvq1 : v < 256 ^ (Nat.log2 v / 8 + 1) := lt_pow256_div8_succ v hne
    have hbv : beValue (beBytes (Nat.log2 v / 8 + 1) v) = v := by
      rw [beValue_beBytes, Nat.mod_eq_of_lt hvq1]
    have hlen1 : (beBytes (Nat.log2 v / 8) v).length + 1 ≤ 16 := by
      rw [beBytes_length]
      omega
    by_cases hr : Nat.log2 v % 8 = 7
    · -- top bit of the top byte set: the encoder kept a 0x00 pad byte
      have hskip : intSkip v = 15 - Nat.log2 v / 8 := by
        simp only [intSkip, leadingZeros128, if_neg hne]
        split <;> omega
      have hd : (beBytes 17 v).drop (15 - Nat.log2 v / 8) =
          beBytes (Nat.log2 v / 8 + 2) v := by
        have he : beBytes 17 v =
            beBytes ((15 - Nat.log2 v / 8) + (Nat.log2 v / 8 + 2)) v := by
          rw [show (15 - Nat.log2 v / 8) + (Nat.log2 v / 8 + 2) = 17 from by omega]
        rw [he, beBytes_drop]
      have hsplit : beBytes (Nat.log2 v / 8 + 2) v =
          0 :: beBytes (Nat.log2 v / 8 + 1) v := beBytes_of_lt _ v hvq1
      have hhead : beBytes (Nat.log2 v / 8 + 1) v =
          (v / 256 ^ (Nat.log2 v / 8) % 256) :: beBytes (Nat.log2 v / 8) v :=
        beBytes_succ_cons _ v
      have hlt256 : v / 256 ^ (Nat.log2 v / 8) < 256 := by
        have h2 := htb.2
        rw [hr] at h2
        norm_num at h2
        exact h2
      have hge : 128 ≤ v / 256 ^ (Nat.log2 v / 8) % 256 := by
        rw [Nat.mod_eq_of_lt hlt256]
        have h1 := htb.1
        rw [hr] at h1
        norm_num at h1
        exact h1
      rw [hpay, hskip, hd, hsplit, hhead,
        uintDeserialize_pad max _ _ hge (by simpa using hlen1), ← hhead, hbv]
    · -- top bit of the top byte clear: no pad byte in the payload
      have hskip : intSkip v = 16 - Nat.log2 v / 8 := by
        simp only [intSkip, leadingZeros128, if_neg hne]
        split <;> omega
      have hd : (beBytes 17 v).drop (16 - Nat.log2 v / 8) =
          beBytes (Nat.log2 v / 8 + 1) v := by
        have he : beBytes 17 v =
            beBytes ((16 - Nat.log2 v / 8) + (Nat.log2 v / 8 + 1)) v := by
          rw [show (16 - Nat.log2 v / 8) + (Nat.log2 v / 8 + 1) = 17 from by omega]
        rw [he, beBytes_drop]
      have hhead : beBytes (Nat.log2 v / 8 + 1) v =
          (v / 256 ^ (Nat.log2 v / 8) % 256) :: beBytes (Nat.log2 v / 8) v :=
        beBytes_succ_cons _ v
      have hlt128 : v / 256 ^ (Nat.log2 v / 8) < 128 := by
        have h2 := htb.2
        have hmod : Nat.log2 v % 8 + 1 ≤ 7 := by omega
        calc v / 256 ^ (Nat.log2 v / 8) < 2 ^ (Nat.log2 v % 8 + 1) := h2
        _ ≤ 2 ^ 7 := Nat.pow_le_pow_right (by norm_num) hmod
        _ = 128 := by norm_num
      have hpos : 1 ≤ v / 256 ^ (Nat.log2 v / 8) := by
        have h1 := htb.1
        calc (1 : Nat) = 2 ^ 0 := by norm_num
        _ ≤ 2 ^ (Nat.log2 v % 8) := Nat.pow_le_pow_right (by norm_num) (by omega)
        _ ≤ v / 256 ^ (Nat.log2 v / 8) := h1
      have hmod256 : v / 256 ^ (Nat.log2 v / 8) % 256 = v / 256 ^ (Nat.log2 v / 8) :=
        Nat.mod_eq_of_lt (by omega)
      rw [hpay, hskip, hd, hhead,
        uintDeserialize_plain max _ _ (by omega) (by omega) (by simpa using hlen1),
        ← hhead, hbv]

theorem uint_payload_length (v : Nat) :
    ((0 :: beBytes 16 v).drop (intSkip v)).length = 17 - intSkip v := by
  simp [beBytes_length]

/-- Full-TLV round-trip for unsigned integers: decoding the bytes written
by `UnsignedInteger::serialize` through `deserialize_uN` yields the value
back, for every width maximum and every value in range. -/
theorem deserializeUInt_roundtrip (max v : Nat) (hvmax : v ≤ max)
    (hmax : max < 2 ^ 128) :
    (deserializeUInt max ⟨uintSerialize v, 0⟩).1 = .ok v := by
  have hv : v < 2 ^ 128 := by omega
  have hfrom : fromU128 max v = .ok v := by rw [fromU128, if_neg (by omega)]
  have hno := nextObject_all 0x02 (17 - intSkip v) (by omega)
      ((0 :: beBytes 16 v).drop (intSkip v)) (uint_payload_length v) 0
  simp only [uintSerialize, deserializeUInt, peekOne, List.cons_append,
    IntegerTAG] at hno ⊢
  rw [if_neg (by omega)]
  rw [hno]
  simp only [uint_payload_roundtrip v hv max, hfrom]

/-- Full-TLV round-trip for octet strings. -/
theorem deserializeBytes_roundtrip (v : List Nat) (hlen : v.length < 2 ^ 64) :
    (deserializeBytes ⟨octetStringSerialize v, 0⟩).1 = .ok v := by
  have hno := nextObject_all 0x04 v.length hlen v rfl 0
  simp only [octetStringSerialize, deserializeBytes, peekOne,
    List.cons_append, OctetStringTAG] at hno ⊢
  rw [if_neg (by omega)]
  rw [hno]
  simp [octetStringDeserialize]

/-- Full-TLV round-trip for UTF-8 strings (at byte level). -/
theorem deserializeStr_roundtrip (v : List Nat) (hlen : v.length < 2 ^ 64)
    (hutf : utf8Valid v = true) :
    (deserializeStr ⟨utf8StringSerialize v, 0⟩).1 = .ok v := by
  have hno := nextObject_all 0x0c v.length hlen v rfl 0
  simp only [utf8StringSerialize, deserializeStr, peekOne,
    List.cons_append, Utf8StringTAG] at hno ⊢
  rw [if_neg (by omega)]
  rw [hno]
  simp [utf8StringDeserialize, hutf]

theorem writeObject_foldl (s : SeqSerializer) (encs : List (List Nat)) :
    encs.foldl writeObject s = { s with buf := s.buf ++ encs.flatten } := by
  induction encs generalizing s with
  | nil => simp
  | cons e es ih =>
    simp [List.foldl_cons, writeObject, ih, List.append_assoc]

/-! ## Claims -/

/-- C1: the claim says `next_element_seed` fails with `InvalidData` or
`TruncatedData` when an element overruns the remaining declared length and
never wraps the counter.  The code has no such check: decoding the
sequence TLV `30 03 02 03 01 02 03` (declared length 3) with a `u32`
element seed succeeds — the header decode yields remaining length 3, the
one element decode consumes 5 bytes and returns `Ok(0x010203)`, and
`self.len -= delta` wraps the remaining length to `2^64 - 2` (in a debug
build this subtraction panics). -/
theorem sequence_overrun_wraps_remaining_length :
    deserializeSeqHeader ⟨[0x30, 0x03, 0x02, 0x03, 0x01, 0x02, 0x03], 0⟩ =
      (.ok 3, ⟨[0x02, 0x03, 0x01, 0x02, 0x03], 2⟩) ∧
    seqNextElement (deserializeUInt (2 ^ 32 - 1))
        ⟨[0x02, 0x03, 0x01, 0x02, 0x03], 2⟩ 3 =
      (.ok (some 0x010203), ⟨[], 7⟩, 2 ^ 64 - 2) := by
  constructor
  · rfl
  · rfl

/-- C10: `Length::deserialized` accepts the non-minimal long-form length
`81 05` and returns 5, the same value as the short form `05`, while the
encoder would only ever produce the short form for 5 — so decode accepts
strictly more encodings than encode produces. -/
theorem length_decode_accepts_nonminimal :
    lengthDeserialized ⟨[0x81, 0x05], 0⟩ = (.ok 5, ⟨[], 2⟩) ∧
    lengthDeserialized ⟨[0x05], 0⟩ = (.ok 5, ⟨[], 1⟩) ∧
    lengthSerialize 5 = [0x05] ∧
    lengthSerialize 5 ≠ [0x81, 0x05] := by
  refine ⟨rfl, rfl, rfl, by decide⟩

/-- C6 counterexample: the claim says the empty boolean payload fails with
`InvalidData`, but `Boolean::deserialize` checks `data.is_empty()` first
and returns `TruncatedData` there. -/
theorem boolean_empty_payload_counterexample :
    booleanDeserialize [] = .error .TruncatedData ∧
    booleanDeserialize [] ≠ .error .InvalidData := by
  refine ⟨rfl, ?_⟩
  rw [show booleanDeserialize [] = .error .TruncatedData from rfl]
  simp

/-- C6 (amended): `Boolean::deserialize` accepts exactly the one-byte
payloads `0x00` (false) and `0xff` (true); any other one-byte payload and
any longer payload fail with `InvalidData`; the empty payload fails with
`TruncatedData` (not `InvalidData` as the claim stated). -/
theorem boolean_decode_exact :
    booleanDeserialize [] = .error .TruncatedData ∧
    booleanDeserialize [0x00] = .ok false ∧
    booleanDeserialize [0xff] = .ok true ∧
    (∀ b : Nat, b ≠ 0x00 → b ≠ 0xff →
      booleanDeserialize [b] = .error .InvalidData) ∧
    (∀ (b c : Nat) (rest : List Nat),
      booleanDeserialize (b :: c :: rest) = .error .InvalidData) := by
  refine ⟨rfl, rfl, rfl, ?_, ?_⟩
  · intro b h1 h2
    simp [booleanDeserialize, h1, h2]
  · intro b c rest
    simp [booleanDeserialize]

/-- C6 witness for the amended claim's quantified parts. -/
theorem boolean_decode_exact_witness :
    booleanDeserialize [0x01] = .error .InvalidData ∧
    booleanDeserialize [0x00, 0x00] = .error .InvalidData :=
  ⟨boolean_decode_exact.2.2.2.1 0x01 (by decide) (by decide),
   boolean_decode_exact.2.2.2.2 0x00 0x00 []⟩

/-- C2 counterexample: the claim says every typed entry point consumes
nothing before the tag-mismatch `InvalidData` error; `deserialize_seq`
however reads tag and length via `__next_tag_len` *before* matching the
tag, so on the INTEGER TLV `02 01 05` the sequence entry point reports
`InvalidData` with the reader already advanced by 2 bytes. -/
theorem seq_mismatch_consumes_bytes_counterexample :
    (deserializeSeqHeader ⟨[0x02, 0x01, 0x05], 0⟩).1 = .error .InvalidData ∧
    (deserializeSeqHeader ⟨[0x02, 0x01, 0x05], 0⟩).2 = ⟨[0x05], 2⟩ ∧
    (deserializeSeqHeader ⟨[0x02, 0x01, 0x05], 0⟩).2 ≠ ⟨[0x02, 0x01, 0x05], 0⟩ := by
  refine ⟨rfl, rfl, by decide⟩

/-- C2 (amended): for the scalar typed entry points (bool, every unsigned
integer width, str/string, bytes, unit) a tag mismatch fails with
`InvalidData` and the reader state is unchanged (the tag was only
peeked); for the sequence entry point the mismatch also fails with
`InvalidData`, but the tag byte and the length bytes have already been
consumed. -/
theorem typed_entry_tag_mismatch :
    (∀ (t : Nat) (rest : List Nat) (p : Nat), t ≠ BooleanTAG →
      deserializeBool ⟨t :: rest, p⟩ = (.error .InvalidData, ⟨t :: rest, p⟩)) ∧
    (∀ (max t : Nat) (rest : List Nat) (p : Nat), t ≠ IntegerTAG →
      deserializeUInt max ⟨t :: rest, p⟩ = (.error .InvalidData, ⟨t :: rest, p⟩)) ∧
    (∀ (t : Nat) (rest : List Nat) (p : Nat), t ≠ Utf8StringTAG →
      deserializeStr ⟨t :: rest, p⟩ = (.error .InvalidData, ⟨t :: rest, p⟩)) ∧
    (∀ (t : Nat) (rest : List Nat) (p : Nat), t ≠ OctetStringTAG →
      deserializeBytes ⟨t :: rest, p⟩ = (.error .InvalidData, ⟨t :: rest, p⟩)) ∧
    (∀ (t : Nat) (rest : List Nat) (p : Nat), t ≠ NullTAG →
      deserializeUnit ⟨t :: rest, p⟩ = (.error .InvalidData, ⟨t :: rest, p⟩)) ∧
    (∀ (t L : Nat) (rest : List Nat) (p : Nat), t ≠ SequenceTAG → L < 2 ^ 64 →
      deserializeSeqHeader ⟨t :: lengthSerialize L ++ rest, p⟩ =
        (.error .InvalidData, ⟨rest, p + 1 + (lengthSerialize L).length⟩)) := by
  refine ⟨?_, ?_, ?_, ?_, ?_, ?_⟩
  · intro t rest p h
    simp only [deserializeBool, peekOne]
    rw [if_pos h]
  · intro max t rest p h
    simp only [deserializeUInt, peekOne]
    rw [if_pos h]
  · intro t rest p h
    simp only [deserializeStr, peekOne]
    rw [if_pos h]
  · intro t rest p h
    simp only [deserializeBytes, peekOne]
    rw [if_pos h]
  · intro t rest p h
    simp only [deserializeUnit, peekOne]
    rw [if_pos h]
  · intro t L rest p h hL
    simp only [deserializeSeqHeader, nextTagLen, readOne, List.cons_append,
      length_roundtrip L hL rest (p + 1)]
    rw [if_neg h]

/-- C2 witness for the amended claim. -/
theorem typed_entry_tag_mismatch_witness :
    deserializeBool ⟨[0x04, 0x00], 0⟩ = (.error .InvalidData, ⟨[0x04, 0x00], 0⟩) ∧
    deserializeUInt 255 ⟨[0x04, 0x00], 0⟩ = (.error .InvalidData, ⟨[0x04, 0x00], 0⟩) ∧
    deserializeStr ⟨[0x04, 0x00], 0⟩ = (.error .InvalidData, ⟨[0x04, 0x00], 0⟩) ∧
    deserializeBytes ⟨[0x05, 0x00], 0⟩ = (.error .InvalidData, ⟨[0x05, 0x00], 0⟩) ∧
    deserializeUnit ⟨[0x04, 0x00], 0⟩ = (.error .InvalidData, ⟨[0x04, 0x00], 0⟩) ∧
    deserializeSeqHeader ⟨0x02 :: lengthSerialize 0x01 ++ [0x05], 0⟩ =
      (.error .InvalidData, ⟨[0x05], 0 + 1 + (lengthSerialize 0x01).length⟩) :=
  ⟨typed_entry_tag_mismatch.1 0x04 [0x00] 0 (by decide),
   typed_entry_tag_mismatch.2.1 255 0x04 [0x00] 0 (by decide),
   typed_entry_tag_mismatch.2.2.1 0x04 [0x00] 0 (by decide),
   typed_entry_tag_mismatch.2.2.2.1 0x05 [0x00] 0 (by decide),
   typed_entry_tag_mismatch.2.2.2.2.1 0x04 [0x00] 0 (by decide),
   typed_entry_tag_mismatch.2.2.2.2.2 0x02 0x01 [0x05] 0 (by decide) (by norm_num)⟩

/-- C5: `UnsignedInteger::deserialize` implements the canonical
unsigned-integer decode rule: a first byte `≥ 0x80` is `UnsupportedValue`;
`0x00` followed by a byte `< 0x80` is `InvalidData` (non-minimal pad);
`[0x00]` alone decodes to 0; a single `0x00` pad before a byte `≥ 0x80`
is stripped; values that do not fit the requested width (or payloads of
more than 16 significant bytes after the strip) are `UnsupportedValue`,
both for unpadded payloads and for padded payloads whose stripped bytes
overflow; in particular `[0x00, 0x05]` fails with `InvalidData`. -/
theorem uint_decode_canonical_rule :
    (∀ (max b0 : Nat) (rest : List Nat), 128 ≤ b0 →
      uintDeserialize max (b0 :: rest) = .error .UnsupportedValue) ∧
    (∀ (max b1 : Nat) (rest : List Nat), b1 < 128 →
      uintDeserialize max (0 :: b1 :: rest) = .error .InvalidData) ∧
    (∀ max : Nat, uintDeserialize max [0] = .ok 0) ∧
    (∀ (max b1 : Nat) (rest : List Nat), 128 ≤ b1 →
      (b1 :: rest).length ≤ 16 → beValue (b1 :: rest) ≤ max →
      uintDeserialize max (0 :: b1 :: rest) = .ok (beValue (b1 :: rest))) ∧
    (∀ (max b0 : Nat) (rest : List Nat), 1 ≤ b0 → b0 < 128 →
      (b0 :: rest).length ≤ 16 → max < beValue (b0 :: rest) →
      uintDeserialize max (b0 :: rest) = .error .UnsupportedValue) ∧
    (∀ (max b0 : Nat) (rest : List Nat), b0 ≠ 0 → b0 < 128 →
      16 < (b0 :: rest).length →
      uintDeserialize max (b0 :: rest) = .error .UnsupportedValue) ∧
    (∀ (max b1 : Nat) (rest : List Nat), 128 ≤ b1 →
      (b1 :: rest).length ≤ 16 → max < beValue (b1 :: rest) →
      uintDeserialize max (0 :: b1 :: rest) = .error .UnsupportedValue) ∧
    (∀ (max b1 : Nat) (rest : List Nat), 128 ≤ b1 →
      16 < (b1 :: rest).length →
      uintDeserialize max (0 :: b1 :: rest) = .error .UnsupportedValue) ∧
    (∀ max : Nat, uintDeserialize max [0x00, 0x05] = .error .InvalidData) := by
  refine ⟨?_, ?_, ?_, ?_, ?_, ?_, ?_, ?_, ?_⟩
  · intro max b0 rest h
    simp only [uintDeserialize, if_pos h]
  · intro max b1 rest h
    simp [uintDeserialize, h]
  · intro max
    simp [uintDeserialize, beValue, fromU128]
  · intro max b1 rest h1 h2 h3
    rw [uintDeserialize_pad max b1 rest h1 (by simpa using h2), fromU128,
      if_neg (by omega)]
  · intro max b0 rest h1 h2 h3 h4
    rw [uintDeserialize_plain max b0 rest (by omega) (by omega)
      (by simpa using h3), fromU128, if_pos (by omega)]
  · intro max b0 rest h1 h2 h3
    have hlen : (b0 :: rest).length > 16 := h3
    simp only [uintDeserialize]
    rw [if_neg (by omega), if_neg h1]
    simp only []
    rw [if_pos (by simpa using h3)]
  · intro max b1 rest h1 h2 h3
    rw [uintDeserialize_pad max b1 rest h1 (by simpa using h2), fromU128,
      if_pos (by omega)]
  · intro max b1 rest h1 h2
    have hb1 : ¬ b1 < 128 := by omega
    have hlen : (b1 :: rest).length > 16 := h2
    simp [uintDeserialize, hb1, hlen]
    exact fun h => absurd h (by simp at hlen; omega)
  · intro max
    rfl

/-- C5 witness for the quantified parts of the canonical decode rule,
including a padded payload whose stripped bytes overflow the width
(`[0x00, 0x80, 0x00]` at `u8`). -/
theorem uint_decode_canonical_rule_witness :
    uintDeserialize 255 [0x80] = .error .UnsupportedValue ∧
    uintDeserialize 255 [0x00, 0x05] = .error .InvalidData ∧
    uintDeserialize 255 [0] = .ok 0 ∧
    uintDeserialize 255 [0x00, 0x80] = .ok (beValue [0x80]) ∧
    uintDeserialize 255 [0x01, 0x00] = .error .UnsupportedValue ∧
    uintDeserialize (2 ^ 128 - 1)
      [1, 0, 0, 0, 0, 0, 0, 0, 0, 0, 0, 0, 0, 0, 0, 0, 0] =
      .error .UnsupportedValue ∧
    uintDeserialize 255 [0x00, 0x80, 0x00] = .error .UnsupportedValue ∧
    uintDeserialize (2 ^ 128 - 1)
      [0, 0x80, 0, 0, 0, 0, 0, 0, 0, 0, 0, 0, 0, 0, 0, 0, 0, 0] =
      .error .UnsupportedValue :=
  ⟨uint_decode_canonical_rule.1 255 0x80 [] (by decide),
   uint_decode_canonical_rule.2.1 255 0x05 [] (by decide),
   uint_decode_canonical_rule.2.2.1 255,
   uint_decode_canonical_rule.2.2.2.1 255 0x80 [] (by decide) (by decide)
     (by decide),
   uint_decode_canonical_rule.2.2.2.2.1 255 0x01 [0x00] (by decide) (by decide)
     (by decide) (by decide),
   uint_decode_canonical_rule.2.2.2.2.2.1 (2 ^ 128 - 1) 1
     [0, 0, 0, 0, 0, 0, 0, 0, 0, 0, 0, 0, 0, 0, 0, 0] (by decide) (by decide)
     (by decide),
   uint_decode_canonical_rule.2.2.2.2.2.2.1 255 0x80 [0x00] (by decide)
     (by decide) (by decide),
   uint_decode_canonical_rule.2.2.2.2.2.2.2.1 (2 ^ 128 - 1) 0x80
     [0, 0, 0, 0, 0, 0, 0, 0, 0, 0, 0, 0, 0, 0, 0, 0] (by decide)
     (by decide)⟩

/-- C7: sequence encoding is two-pass: serializing the child elements (in
call order) only grows the private buffer and leaves the real sink
untouched; `finalize` then writes tag, the DER length of the buffered
size, and the buffered bytes; concretely the one-element tuple `(3u8,)`
encodes to `30 03 02 01 03`. -/
theorem sequence_encode_two_pass :
    (∀ (sink : List Nat) (tag : Nat) (encs : List (List Nat)),
      (encs.foldl writeObject (serializeLazy sink tag)).sink = sink ∧
      (encs.foldl writeObject (serializeLazy sink tag)).buf = encs.flatten) ∧
    (∀ (sink : List Nat) (tag : Nat) (encs : List (List Nat)),
      seqFinalize (encs.foldl writeObject (serializeLazy sink tag)) =
        sink ++ tag :: lengthSerialize encs.flatten.length ++ encs.flatten) ∧
    seqFinalize (writeObject (serializeLazy [] 0x30) (uintSerialize 3)) =
      [0x30, 0x03, 0x02, 0x01, 0x03] := by
  have h3 : uintSerialize 3 = [0x02, 0x01, 0x03] := by
    norm_num [uintSerialize, intSkip, leadingZeros128, Nat.log2,
      lengthSerialize, beBytes]
  refine ⟨?_, ?_, by rw [h3]; rfl⟩
  · intro sink tag encs
    rw [writeObject_foldl]
    exact ⟨rfl, by simp [serializeLazy]⟩
  · intro sink tag encs
    rw [writeObject_foldl]
    simp [seqFinalize, serializeLazy]

/-- C8: decoding any typed entry point from an input whose bytes end
before the declared TLV length is satisfied fails with `TruncatedData`
(the end-of-stream during the declared-length payload read maps to
exactly this error), and likewise for the raw object reader. -/
theorem truncated_input_fails :
    (∀ (tag L : Nat) (rest : List Nat) (p : Nat), rest.length < L → L < 2 ^ 64 →
      (nextObject ⟨tag :: lengthSerialize L ++ rest, p⟩).1 = .error .TruncatedData) ∧
    (∀ (L : Nat) (rest : List Nat), rest.length < L → L < 2 ^ 64 →
      (deserializeBool ⟨BooleanTAG :: lengthSerialize L ++ rest, 0⟩).1 =
        .error .TruncatedData) ∧
    (∀ (max L : Nat) (rest : List Nat), rest.length < L → L < 2 ^ 64 →
      (deserializeUInt max ⟨IntegerTAG :: lengthSerialize L ++ rest, 0⟩).1 =
        .error .TruncatedData) ∧
    (∀ (L : Nat) (rest : List Nat), rest.length < L → L < 2 ^ 64 →
      (deserializeStr ⟨Utf8StringTAG :: lengthSerialize L ++ rest, 0⟩).1 =
        .error .TruncatedData) ∧
    (∀ (L : Nat) (rest : List Nat), rest.length < L → L < 2 ^ 64 →
      (deserializeBytes ⟨OctetStringTAG :: lengthSerialize L ++ rest, 0⟩).1 =
        .error .TruncatedData) ∧
    (∀ (L : Nat) (rest : List Nat), rest.length < L → L < 2 ^ 64 →
      (deserializeUnit ⟨NullTAG :: lengthSerialize L ++ rest, 0⟩).1 =
        .error .TruncatedData) := by
  refine ⟨?_, ?_, ?_, ?_, ?_, ?_⟩
  · intro tag L rest p h hL
    rw [nextObject_truncated tag L hL rest h p]
  · intro L rest h hL
    simp only [deserializeBool, peekOne, List.cons_append]
    rw [if_neg (by simp)]
    rw [show (BooleanTAG :: (lengthSerialize L ++ rest) : List Nat) =
      BooleanTAG :: lengthSerialize L ++ rest from rfl,
      nextObject_truncated BooleanTAG L hL rest h 0]
  · intro max L rest h hL
    simp only [deserializeUInt, peekOne, List.cons_append]
    rw [if_neg (by simp)]
    rw [show (IntegerTAG :: (lengthSerialize L ++ rest) : List Nat) =
      IntegerTAG :: lengthSerialize L ++ rest from rfl,
      nextObject_truncated IntegerTAG L hL rest h 0]
  · intro L rest h hL
    simp only [deserializeStr, peekOne, List.cons_append]
    rw [if_neg (by simp)]
    rw [show (Utf8StringTAG :: (lengthSerialize L ++ rest) : List Nat) =
      Utf8StringTAG :: lengthSerialize L ++ rest from rfl,
      nextObject_truncated Utf8StringTAG L hL rest h 0]
  · intro L rest h hL
    simp only [deserializeBytes, peekOne, List.cons_append]
    rw [if_neg (by simp)]
    rw [show (OctetStringTAG :: (lengthSerialize L ++ rest) : List Nat) =
      OctetStringTAG :: lengthSerialize L ++ rest from rfl,
      nextObject_truncated OctetStringTAG L hL rest h 0]
  · intro L rest h hL
    simp only [deserializeUnit, peekOne, List.cons_append]
    rw [if_neg (by simp)]
    rw [show (NullTAG :: (lengthSerialize L ++ rest) : List Nat) =
      NullTAG :: lengthSerialize L ++ rest from rfl,
      nextObject_truncated NullTAG L hL rest h 0]

/-- C8 witness: each entry point on a TLV declaring 2 payload bytes while
only 1 byte follows. -/
theorem truncated_input_fails_witness :
    (nextObject ⟨0x30 :: lengthSerialize 2 ++ [0x00], 7⟩).1 = .error .TruncatedData ∧
    (deserializeBool ⟨BooleanTAG :: lengthSerialize 2 ++ [0x00], 0⟩).1 =
      .error .TruncatedData ∧
    (deserializeUInt 255 ⟨IntegerTAG :: lengthSerialize 2 ++ [0x00], 0⟩).1 =
      .error .TruncatedData ∧
    (deserializeStr ⟨Utf8StringTAG :: lengthSerialize 2 ++ [0x00], 0⟩).1 =
      .error .TruncatedData ∧
    (deserializeBytes ⟨OctetStringTAG :: lengthSerialize 2 ++ [0x00], 0⟩).1 =
      .error .TruncatedData ∧
    (deserializeUnit ⟨NullTAG :: lengthSerialize 2 ++ [0x00], 0⟩).1 =
      .error .TruncatedData :=
  ⟨truncated_input_fails.1 0x30 2 [0x00] 7 (by decide) (by norm_num),
   truncated_input_fails.2.1 2 [0x00] (by decide) (by norm_num),
   truncated_input_fails.2.2.1 255 2 [0x00] (by decide) (by norm_num),
   truncated_input_fails.2.2.2.1 2 [0x00] (by decide) (by norm_num),
   truncated_input_fails.2.2.2.2.1 2 [0x00] (by decide) (by norm_num),
   truncated_input_fails.2.2.2.2.2 2 [0x00] (by decide) (by norm_num)⟩

/-- C9: when the encapsulation machine is armed and the tag actually at
the next object boundary differs from the expected wrapper tag,
`__decapsulate` fails with `InvalidData` and the `encapsulated` flag is
already cleared (state reset to idle) in the state it leaves behind, with
nothing consumed from the reader. -/
theorem decapsulate_mismatch_resets :
    ∀ (s : DeStateE) (t : Nat) (rest : List Nat),
      s.encapsulated = true → s.input = t :: rest → t ≠ s.encapsulatorTag →
      decapsulate s = (.error .InvalidData, { s with encapsulated := false }) := by
  intro s t rest h1 h2 h3
  obtain ⟨inp, pos, enc, etag⟩ := s
  simp only at h1 h2 h3
  subst h1 h2
  rw [decapsulate, if_pos rfl]
  simp only [peekOne]
  rw [if_neg h3]

/-- C9 witness: armed for context tag `0xA1` while the stream starts with
`0xA0`. -/
theorem decapsulate_mismatch_resets_witness :
    decapsulate ⟨[0xa0, 0x03, 0x02, 0x01, 0x05], 0, true, 0xa1⟩ =
      (.error .InvalidData, ⟨[0xa0, 0x03, 0x02, 0x01, 0x05], 0, false, 0xa1⟩) :=
  decapsulate_mismatch_resets ⟨[0xa0, 0x03, 0x02, 0x01, 0x05], 0, true, 0xa1⟩
    0xa0 [0x03, 0x02, 0x01, 0x05] rfl rfl (by decide)

/-- C3: `decode(encode(v)) = v` for every representable value of every
supported primitive type: booleans, unsigned integers of every width
(`max` is the width's maximum, `2^8-1` … `2^64-1` for `usize`,
`2^128-1`), the unit/null value, byte strings, and UTF-8 strings
(identified with their UTF-8 byte lists). -/
theorem primitive_roundtrip :
    (∀ b : Bool, (deserializeBool ⟨boolSerialize b, 0⟩).1 = .ok b) ∧
    (∀ max v : Nat, v ≤ max → max < 2 ^ 128 →
      (deserializeUInt max ⟨uintSerialize v, 0⟩).1 = .ok v) ∧
    ((deserializeUnit ⟨nullSerialize, 0⟩).1 = .ok ()) ∧
    (∀ v : List Nat, v.length < 2 ^ 64 →
      (deserializeBytes ⟨octetStringSerialize v, 0⟩).1 = .ok v) ∧
    (∀ v : List Nat, v.length < 2 ^ 64 → utf8Valid v = true →
      (deserializeStr ⟨utf8StringSerialize v, 0⟩).1 = .ok v) := by
  refine ⟨?_, deserializeUInt_roundtrip, rfl, deserializeBytes_roundtrip,
    deserializeStr_roundtrip⟩
  intro b
  cases b <;> rfl

/-- C3 witness: one concrete round-trip per primitive type. -/
theorem primitive_roundtrip_witness :
    (deserializeBool ⟨boolSerialize true, 0⟩).1 = .ok true ∧
    (deserializeUInt 255 ⟨uintSerialize 200, 0⟩).1 = .ok 200 ∧
    (deserializeUnit ⟨nullSerialize, 0⟩).1 = .ok () ∧
    (deserializeBytes ⟨octetStringSerialize [0x01, 0x02, 0xff], 0⟩).1 =
      .ok [0x01, 0x02, 0xff] ∧
    (deserializeStr ⟨utf8StringSerialize [0x68, 0x69], 0⟩).1 =
      .ok [0x68, 0x69] :=
  ⟨primitive_roundtrip.1 true,
   primitive_roundtrip.2.1 255 200 (by norm_num) (by norm_num),
   primitive_roundtrip.2.2.1,
   primitive_roundtrip.2.2.2.1 [0x01, 0x02, 0xff] (by norm_num),
   primitive_roundtrip.2.2.2.2 [0x68, 0x69] (by norm_num) (by decide)⟩

/-- C4: the length codec round-trips losslessly for every `usize` length
(consuming exactly the bytes it wrote), the encoding is exactly one
verbatim byte for `n ≤ 127`, and for `n ≥ 128` it is the long form
`(k | 0x80)` followed by the `k` minimal big-endian bytes of `n`
(`k = log2 n / 8 + 1`, so `256^(k-1) ≤ n < 256^k`) whose first byte
`n / 256^(k-1)` is not zero. -/
theorem length_codec_roundtrip_minimal :
    (∀ n : Nat, n < 2 ^ 64 → ∀ (rest : List Nat) (p : Nat),
      lengthDeserialized ⟨lengthSerialize n ++ rest, p⟩ =
        (.ok n, ⟨rest, p + (lengthSerialize n).length⟩)) ∧
    (∀ n : Nat, n ≤ 127 → lengthSerialize n = [n]) ∧
    (∀ n : Nat, 128 ≤ n → n < 2 ^ 64 →
      lengthSerialize n =
        (Nat.log2 n / 8 + 1 + 0x80) :: beBytes (Nat.log2 n / 8 + 1) n ∧
      256 ^ (Nat.log2 n / 8) ≤ n ∧ n < 256 ^ (Nat.log2 n / 8 + 1) ∧
      (beBytes (Nat.log2 n / 8 + 1) n).head? = some (n / 256 ^ (Nat.log2 n / 8)) ∧
      n / 256 ^ (Nat.log2 n / 8) ≠ 0) := by
  refine ⟨length_roundtrip, ?_, ?_⟩
  · intro n h
    rw [lengthSerialize, if_pos h]
  · intro n h1 h2
    have hne : n ≠ 0 := by omega
    have htb := top_byte_bounds n hne
    have hlt : n / 256 ^ (Nat.log2 n / 8) < 256 := by
      have h2' := htb.2
      have hle : Nat.log2 n % 8 + 1 ≤ 8 := by omega
      calc n / 256 ^ (Nat.log2 n / 8) < 2 ^ (Nat.log2 n % 8 + 1) := h2'
      _ ≤ 2 ^ 8 := Nat.pow_le_pow_right (by norm_num) hle
      _ = 256 := by norm_num
    have hpos : 1 ≤ n / 256 ^ (Nat.log2 n / 8) := by
      calc (1 : Nat) = 2 ^ 0 := by norm_num
      _ ≤ 2 ^ (Nat.log2 n % 8) := Nat.pow_le_pow_right (by norm_num) (by omega)
      _ ≤ n / 256 ^ (Nat.log2 n / 8) := htb.1
    refine ⟨lengthSerialize_long_eq n h1 h2, pow256_div8_le n hne,
      lt_pow256_div8_succ n hne, ?_, by omega⟩
    rw [beBytes_succ_cons]
    simp [Nat.mod_eq_of_lt hlt]

/-- C4 witness: the length 290 (long form `82 01 22`) and the length 5
(short form). -/
theorem length_codec_roundtrip_minimal_witness :
    lengthDeserialized ⟨lengthSerialize 290 ++ [0x07], 0⟩ =
      (.ok 290, ⟨[0x07], 0 + (lengthSerialize 290).length⟩) ∧
    lengthSerialize 5 = [5] ∧
    (lengthSerialize 290 =
        (Nat.log2 290 / 8 + 1 + 0x80) :: beBytes (Nat.log2 290 / 8 + 1) 290 ∧
      256 ^ (Nat.log2 290 / 8) ≤ 290 ∧ 290 < 256 ^ (Nat.log2 290 / 8 + 1) ∧
      (beBytes (Nat.log2 290 / 8 + 1) 290).head? =
        some (290 / 256 ^ (Nat.log2 290 / 8)) ∧
      290 / 256 ^ (Nat.log2 290 / 8) ≠ 0) :=
  ⟨length_codec_roundtrip_minimal.1 290 (by norm_num) [0x07] 0,
   length_codec_roundtrip_minimal.2.1 5 (by norm_num),
   length_codec_roundtrip_minimal.2.2 290 (by norm_num) (by norm_num)⟩

end Asn1Der
